import Mathlib

/-
Verification of the notification Lambda (lambda/notify-to-app/index.py).

Strings are modelled as lists of characters (`Str`); Python's `str` methods
and the concrete regular expressions used by the source are embedded as
executable Lean functions.  Effectful collaborators (the HTTP stack, the
Bedrock client) are modelled as oracle parameters, and Python exceptions as
an `Except` error channel.
-/

/-- Python strings, modelled as lists of characters. -/
abbrev Str := List Char

/-- Character data of a Lean string literal. -/
def ofStr (s : String) : Str := s.data

/-- The characters stripped by Python's default str.strip(). -/
def isPySpace (c : Char) : Bool :=
  c = ' ' || c = '\t' || c = '\n' || c = '\r' || c = '\x0b' || c = '\x0c'

/-- Python str.strip(): drop leading and trailing whitespace. -/
def pyStrip (s : Str) : Str :=
  ((s.dropWhile isPySpace).reverse.dropWhile isPySpace).reverse

/-- Index of the first occurrence of pat in s (Python str.find for a
nonempty pattern). -/
def firstOcc (pat : Str) : Str → Option Nat
  | [] => none
  | c :: rest =>
    if pat.isPrefixOf (c :: rest) then some 0
    else (firstOcc pat rest).map (· + 1)

/-- Python's substring test `pat in s` (for a nonempty pattern). -/
def hasOcc (pat s : Str) : Bool := (firstOcc pat s).isSome

/-- The opening form of an instruction-markup tag. -/
def openTagOf (tag : Str) : Str := '<' :: (tag ++ ofStr ">")

/-- The closing form of an instruction-markup tag. -/
def closeTagOf (tag : Str) : Str := '<' :: '/' :: (tag ++ ofStr ">")

/-- One pass of re.sub(r'<tag>.*?</tag>', '', s, flags=re.DOTALL): scan left
to right; at each occurrence of the open tag, delete through the earliest
following close tag and continue after it; an open tag with no later close
tag matches nothing.  The fuel argument only bounds recursion and exceeds
the maximal number of scanning steps whenever it is at least the length of
the text, since every step consumes at least one character. -/
def removeTaggedFuel : Nat → Str → Str → Str
  | 0, _, s => s
  | fuel + 1, tag, s =>
    match s with
    | [] => []
    | c :: rest =>
      if (openTagOf tag).isPrefixOf (c :: rest) then
        match firstOcc (closeTagOf tag) ((c :: rest).drop (openTagOf tag).length) with
        | some j =>
          removeTaggedFuel fuel tag
            (((c :: rest).drop (openTagOf tag).length).drop (j + (closeTagOf tag).length))
        | none => c :: rest
      else c :: removeTaggedFuel fuel tag rest

/-- re.sub(r'<tag>.*?</tag>', '', s, flags=re.DOTALL). -/
def removeTagged (tag : Str) (s : Str) : Str := removeTaggedFuel (s.length + 1) tag s

/-- The six tag names of the unwanted_tags patterns in sanitize_text, in
source order. -/
def unwantedTagNames : List Str :=
  [ofStr "outputFormat", ofStr "summaryRule", ofStr "outputLanguage",
   ofStr "instruction", ofStr "persona", ofStr "input"]

/-- The for-loop of sanitize_text: apply the six tag-pair removals in order. -/
def removeUnwantedTags (s : Str) : Str :=
  unwantedTagNames.foldl (fun acc tag => removeTagged tag acc) s

/-- A maximal run of k newlines after re.sub(r'\n{3,}', '\n\n', s): runs of
three or more newlines become exactly two. -/
def collapseRun (k : Nat) : Str :=
  if 3 ≤ k then ofStr "\n\n" else List.replicate k '\n'

/-- Scanner for re.sub(r'\n{3,}', '\n\n', s); n counts the newlines of the
pending run. -/
def collapseNLAux : Str → Nat → Str
  | [], n => collapseRun n
  | c :: rest, n =>
    if c = '\n' then collapseNLAux rest (n + 1)
    else collapseRun n ++ (c :: collapseNLAux rest 0)

/-- re.sub(r'\n{3,}', '\n\n', s). -/
def collapseNL (s : Str) : Str := collapseNLAux s 0

/-- sanitize_text: empty input yields empty; otherwise remove the six
unwanted tag-pair patterns, collapse runs of three or more newlines to two,
and strip surrounding whitespace. -/
def sanitize_text (text : Str) : Str :=
  if text = [] then [] else pyStrip (collapseNL (removeUnwantedTags text))

/-- Python str.split(ch): the fragments between occurrences of ch, keeping
empty fragments; the result is always nonempty. -/
def splitOnChar (ch : Char) : Str → List Str
  | [] => [[]]
  | c :: rest =>
    if c = ch then [] :: splitOnChar ch rest
    else
      match splitOnChar ch rest with
      | p :: ps => (c :: p) :: ps
      | [] => [[c]]

/-- Python content.split(':', 1) when a colon is present: the text before
the first colon and the text after it.  parse_bullet_points only evaluates
this under its `colon in content` guard, so the no-colon branch is
unreachable there. -/
def splitAtFirstColon : Str → Str × Str
  | [] => ([], [])
  | c :: rest =>
    if c = ':' then ([], rest)
    else
      let p := splitAtFirstColon rest
      (c :: p.1, p.2)

/-- One parsed bullet-point group: an optional topic label and its items. -/
structure BulletGroup where
  topic : Option Str
  items : List Str
deriving DecidableEq

/-- Python truthiness of a group's topic (None and the empty string are
falsy). -/
def optTruthy : Option Str → Bool
  | none => false
  | some t => t ≠ []

/-- groups[-1].get('topic') is truthy (false on an empty list, which the
source short-circuits around). -/
def lastTopicTruthy (gs : List BulletGroup) : Bool :=
  match gs.getLast? with
  | none => false
  | some g => optTruthy g.topic

/-- groups[-1]['items'].append(content): mutate the items of the last
group.  Only called on nonempty lists in parse_bullet_points. -/
def appendToLast (gs : List BulletGroup) (content : Str) : List BulletGroup :=
  match gs with
  | [] => []
  | [g] => [{ g with items := g.items ++ [content] }]
  | g :: rest => g :: appendToLast rest content

/-- The keyword list of parse_bullet_points deciding topic headers. -/
def topicKeywords : List Str :=
  [ofStr "新機能", ofStr "利用可能", ofStr "対象", ofStr "詳細", ofStr "特徴",
   ofStr "メリット", ofStr "更新", ofStr "変更", ofStr "追加"]

/-- The group opened by a topic-header bullet: topic is the text before the
first colon, trimmed; the text after the colon, trimmed, is the first item
unless it is empty. -/
def topic_group (content : Str) : BulletGroup :=
  { topic := some (pyStrip (splitAtFirstColon content).1)
    items :=
      if pyStrip (splitAtFirstColon content).2 = [] then []
      else [pyStrip (splitAtFirstColon content).2] }

/-- Loop state of parse_bullet_points: the accumulated groups, and whether
current_group is set.  Whenever current_group is set it aliases the last
element of groups, so it is not stored separately. -/
structure ParseState where
  groups : List BulletGroup
  currentSet : Bool
deriving DecidableEq

/-- Processing of one bullet's content (the body of the dash branch of
parse_bullet_points). -/
def bulletStep (st : ParseState) (content : Str) : ParseState :=
  if (topicKeywords.any fun k => hasOcc k content) && hasOcc (ofStr ":") content then
    { groups := st.groups ++ [topic_group content], currentSet := true }
  else if st.currentSet then
    { groups := appendToLast st.groups content, currentSet := true }
  else if st.groups.isEmpty || lastTopicTruthy st.groups then
    { groups := st.groups ++ [{ topic := none, items := [content] }], currentSet := false }
  else
    { groups := appendToLast st.groups content, currentSet := false }

/-- Processing of one raw line of parse_bullet_points: strip it, skip blank
lines and lines not marked with a dash-space, and handle bullet content. -/
def lineStep (st : ParseState) (rawLine : Str) : ParseState :=
  if pyStrip rawLine = [] then st
  else if (ofStr "- ").isPrefixOf (pyStrip rawLine) then
    bulletStep st (pyStrip ((pyStrip rawLine).drop 2))
  else st

/-- parse_bullet_points on an explicit list of lines. -/
def parse_bullet_lines (lines : List Str) : List BulletGroup :=
  (lines.foldl lineStep { groups := [], currentSet := false }).groups

/-- parse_bullet_points: empty text yields no groups; otherwise strip the
text, split it on newlines and fold the line processor over the lines. -/
def parse_bullet_points (text : Str) : List BulletGroup :=
  if text = [] then [] else parse_bullet_lines (splitOnChar '\n' (pyStrip text))

/-- Python exceptions that the embedded fragments can raise. -/
inductive PyErr where
  /-- An unbound local variable was referenced (Python UnboundLocalError,
  a subclass of NameError). -/
  | nameError : PyErr
  /-- A botocore ClientError carrying an error code and message. -/
  | clientError (code msg : Str) : PyErr
deriving DecidableEq

/-- Outcome of the boto3 converse call, supplied as an oracle: either the
response text or a ClientError. -/
inductive BedrockOutcome where
  | ok (outputText : Str) : BedrockOutcome
  | clientError (code msg : Str) : BedrockOutcome

/-- re.findall(r'<o>([newline-or-any]*?)</c>', s) restricted to its first
match: the text between the first opening tag and the earliest closing tag
after it, or none when no such pair exists. -/
def find_first_between (opn cls s : Str) : Option Str :=
  match firstOcc opn s with
  | none => none
  | some i =>
    match firstOcc cls (s.drop (i + opn.length)) with
    | none => none
    | some j => some ((s.drop (i + opn.length)).take j)

/-- The no-summary-tag fallback of summarize_blog: sanitize the raw
response and truncate to 200 characters with a "..." suffix when longer. -/
def fallback_summary (outputText : Str) : Str :=
  if 200 < (sanitize_text outputText).length then
    (sanitize_text outputText).take 200 ++ ofStr "..."
  else sanitize_text outputText

/-- Response parsing of summarize_blog: first summary-tag match, stripped,
else the sanitized-truncated fallback; first thinking-tag match, stripped,
else the empty string. -/
def summarize_blog_parse (outputText : Str) : Str × Str :=
  (match find_first_between (ofStr "<summary>") (ofStr "</summary>") outputText with
   | some inner => pyStrip inner
   | none => fallback_summary outputText,
   match find_first_between (ofStr "<thinking>") (ofStr "</thinking>") outputText with
   | some inner => pyStrip inner
   | none => [])

/-- summarize_blog over the converse-call oracle outcome.  On a ClientError
with code AccessDeniedException the except-branch prints its diagnostic and
falls through to `return summary, detail` with both locals unbound, raising
UnboundLocalError; any other ClientError is re-raised. -/
def summarize_blog (outcome : BedrockOutcome) : Except PyErr (Str × Str) :=
  match outcome with
  | .ok outputText => .ok (summarize_blog_parse outputText)
  | .clientError code msg =>
    if code = ofStr "AccessDeniedException" then .error .nameError
    else .error (.clientError code msg)

/-- ASCII case folding for one character; the scheme test of
get_blog_content only compares ASCII characters. -/
def asciiLower (c : Char) : Char :=
  if 'A' ≤ c ∧ c ≤ 'Z' then Char.ofNat (c.toNat + 32) else c

/-- url.lower() on the characters relevant to the scheme check. -/
def pyLower (s : Str) : Str := s.map asciiLower

/-- Outcome of urllib.request.urlopen, supplied as an oracle: the response
(status code, whether the parsed HTML has a main element, and its text), or
a urllib.error.URLError. -/
inductive NetOutcome where
  | response (code : Nat) (hasMain : Bool) (mainText : Str) : NetOutcome
  | urlError (reason : Str) : NetOutcome

/-- get_blog_content: for an http/https URL, a 200 response yields the main
element's text (or None when the page has no main element), a non-200
response falls off the function (None), and a URLError is caught (None).
For any other scheme the else-branch evaluates response.getcode() with the
local `response` unbound, raising UnboundLocalError. -/
def get_blog_content (net : Str → NetOutcome) (url : Str) : Except PyErr (Option Str) :=
  if (ofStr "http://").isPrefixOf (pyLower url) || (ofStr "https://").isPrefixOf (pyLower url) then
    match net url with
    | .response code hasMain mainText =>
      if code = 200 then
        if hasMain then .ok (some mainText) else .ok none
      else .ok none
    | .urlError _ => .ok none
  else .error .nameError

/-- Python str.replace scanning for a nonempty pattern p :: ps: replace
each leftmost occurrence and continue after it.  The fuel bounds recursion
and is sufficient whenever it is at least the length of the text. -/
def pyReplaceFuel (p : Char) (ps rep : Str) : Nat → Str → Str
  | 0, s => s
  | _ + 1, [] => []
  | fuel + 1, c :: rest =>
    if (p :: ps).isPrefixOf (c :: rest) then
      rep ++ pyReplaceFuel p ps rep fuel (rest.drop ps.length)
    else c :: pyReplaceFuel p ps rep fuel rest

/-- Python s.replace(pat, rep).  The source only replaces a nonempty
literal pattern; the empty-pattern case is never used. -/
def pyReplace (pat rep s : Str) : Str :=
  match pat with
  | [] => s
  | p :: ps => pyReplaceFuel p ps rep (s.length + 1) s

/-- The JSON payloads built by the two renderers. -/
inductive Json where
  | null : Json
  | bool (b : Bool) : Json
  | str (s : Str) : Json
  | num (n : Int) : Json
  | arr (elems : List Json) : Json
  | obj (fields : List (Str × Json)) : Json

/-- Lookup of a key in a JSON object's field list. -/
def jLookup (key : Str) : List (Str × Json) → Option Json
  | [] => none
  | (k, v) :: rest => if k = key then some v else jLookup key rest

/-- Field access on a JSON object. -/
def jField (key : Str) : Json → Option Json
  | .obj fields => jLookup key fields
  | _ => none

/-- Index access on a JSON array. -/
def jAt (n : Nat) : Json → Option Json
  | .arr elems => elems.get? n
  | _ => none

/-- Last element of a JSON array. -/
def jLast : Json → Option Json
  | .arr elems => elems.getLast?
  | _ => none

/-- The string carried by a JSON string node. -/
def jStrVal : Json → Option Str
  | .str s => some s
  | _ => none

/-- One Article Entry as assembled by get_new_entries and extended with
summary and detail by push_notification. -/
structure Item where
  rss_category : Str
  rss_time : Str
  rss_title : Str
  rss_link : Str
  rss_notifier_name : Str
  summary : Str
  detail : Str
deriving DecidableEq

/-- A Slack Block Kit section with mrkdwn text. -/
def sectionMrkdwn (txt : Str) : Json :=
  Json.obj [(ofStr "type", Json.str (ofStr "section")),
    (ofStr "text", Json.obj [(ofStr "type", Json.str (ofStr "mrkdwn")),
      (ofStr "text", Json.str txt)])]

/-- The Slack divider block. -/
def dividerBlock : Json := Json.obj [(ofStr "type", Json.str (ofStr "divider"))]

/-- Emoji chosen for a topic header in create_slack_message. -/
def slackTopicEmoji (topic : Str) : Str :=
  if hasOcc (ofStr "利用可能") topic || hasOcc (ofStr "対象") topic then ofStr "✅"
  else if hasOcc (ofStr "新機能") topic || hasOcc (ofStr "追加") topic then ofStr "🚀"
  else if hasOcc (ofStr "変更") topic || hasOcc (ofStr "更新") topic then ofStr "🔄"
  else ofStr "📌"

/-- The bulleted item lines of one group, joined with newlines. -/
def slackBulletLines (items : List Str) : Str :=
  List.intercalate (ofStr "\n") (items.map fun i => ofStr "• " ++ i)

/-- The section emitted for a group without a truthy topic: only present
when the group has items. -/
def slackItemsOnlyBlocks (items : List Str) : List Json :=
  if items = [] then []
  else [sectionMrkdwn ((slackBulletLines items).take 3000)]

/-- The section emitted for a group with a truthy topic. -/
def slackTopicBlock (t : Str) (items : List Str) : Json :=
  sectionMrkdwn ((slackTopicEmoji t ++ ofStr " *" ++ t ++ ofStr "*"
    ++ (if items = [] then [] else ofStr "\n" ++ slackBulletLines items)).take 3000)

/-- The blocks emitted for one bullet group in create_slack_message. -/
def slackGroupBlocks (g : BulletGroup) : List Json :=
  match g.topic with
  | some t => if t = [] then slackItemsOnlyBlocks g.items else [slackTopicBlock t g.items]
  | none => slackItemsOnlyBlocks g.items

/-- The detail-analysis blocks of create_slack_message: an intro section
followed by the per-group sections when any groups were parsed. -/
def slackDetailBlocks (groups : List BulletGroup) : List Json :=
  if groups = [] then []
  else sectionMrkdwn (ofStr "*🔍 詳細分析*") :: (groups.map slackGroupBlocks).flatten

/-- The Slack header block: title truncated to 150 characters. -/
def slackHeaderBlock (item : Item) : Json :=
  Json.obj [(ofStr "type", Json.str (ofStr "header")),
    (ofStr "text", Json.obj [(ofStr "type", Json.str (ofStr "plain_text")),
      (ofStr "text", Json.str (item.rss_title.take 150)),
      (ofStr "emoji", Json.bool true)])]

/-- The Slack context block showing the publish time. -/
def slackContextBlock (item : Item) : Json :=
  Json.obj [(ofStr "type", Json.str (ofStr "context")),
    (ofStr "elements", Json.arr [Json.obj [(ofStr "type", Json.str (ofStr "mrkdwn")),
      (ofStr "text", Json.str (ofStr "📅 *公開日時:* " ++ item.rss_time))]])]

/-- The Slack actions block with the article-link button. -/
def slackActionsBlock (item : Item) : Json :=
  Json.obj [(ofStr "type", Json.str (ofStr "actions")),
    (ofStr "elements", Json.arr [Json.obj [
      (ofStr "type", Json.str (ofStr "button")),
      (ofStr "text", Json.obj [(ofStr "type", Json.str (ofStr "plain_text")),
        (ofStr "text", Json.str (ofStr "📖 記事を読む")),
        (ofStr "emoji", Json.bool true)]),
      (ofStr "url", Json.str item.rss_link),
      (ofStr "style", Json.str (ofStr "primary"))]])]

/-- The block list of create_slack_message, in append order: header,
context, the summary section when the sanitized summary is nonempty, a
divider, the detail sections, a divider, and the actions block. -/
def slack_blocks (item : Item) : List Json :=
  [slackHeaderBlock item, slackContextBlock item]
  ++ ((if sanitize_text item.summary = [] then [] else [sectionMrkdwn (ofStr "*📝 要約*\n" ++ sanitize_text item.summary)])
  ++ ([dividerBlock]
  ++ (slackDetailBlocks (parse_bullet_points (sanitize_text item.detail))
  ++ [dividerBlock, slackActionsBlock item])))

/-- create_slack_message: the Block Kit payload plus the fallback text of
title, a separator, the first 100 characters of the sanitized summary and
an ellipsis. -/
def create_slack_message (item : Item) : Json :=
  Json.obj [(ofStr "blocks", Json.arr (slack_blocks item)),
    (ofStr "text", Json.str (item.rss_title ++ ofStr " - "
      ++ (sanitize_text item.summary).take 100 ++ ofStr "..."))]

/-- create_teams_message: the Adaptive Card payload. -/
def create_teams_message (item : Item) : Json :=
  Json.obj [
    (ofStr "type", Json.str (ofStr "message")),
    (ofStr "attachments", Json.arr [
      Json.obj [
        (ofStr "contentType", Json.str (ofStr "application/vnd.microsoft.card.adaptive")),
        (ofStr "content", Json.obj [
          (ofStr "type", Json.str (ofStr "AdaptiveCard")),
          (ofStr "version", Json.str (ofStr "1.3")),
          (ofStr "body", Json.arr [
            Json.obj [
              (ofStr "type", Json.str (ofStr "ColumnSet")),
              (ofStr "columns", Json.arr [
                Json.obj [
                  (ofStr "type", Json.str (ofStr "Column")),
                  (ofStr "width", Json.str (ofStr "auto")),
                  (ofStr "items", Json.arr [
                    Json.obj [
                      (ofStr "type", Json.str (ofStr "Container")),
                      (ofStr "id", Json.str (ofStr "collapsedItems")),
                      (ofStr "items", Json.arr [
                        Json.obj [(ofStr "type", Json.str (ofStr "TextBlock")),
                          (ofStr "text", Json.str (ofStr "**" ++ item.rss_title ++ ofStr "**"))],
                        Json.obj [(ofStr "type", Json.str (ofStr "TextBlock")),
                          (ofStr "wrap", Json.bool true),
                          (ofStr "text", Json.str item.summary)]])],
                    Json.obj [
                      (ofStr "type", Json.str (ofStr "Container")),
                      (ofStr "id", Json.str (ofStr "expandedItems")),
                      (ofStr "isVisible", Json.bool false),
                      (ofStr "items", Json.arr [
                        Json.obj [(ofStr "type", Json.str (ofStr "TextBlock")),
                          (ofStr "wrap", Json.bool true),
                          (ofStr "text", Json.str item.detail)]])]])]])],
            Json.obj [
              (ofStr "type", Json.str (ofStr "Container")),
              (ofStr "items", Json.arr [
                Json.obj [
                  (ofStr "type", Json.str (ofStr "ColumnSet")),
                  (ofStr "columns", Json.arr [
                    Json.obj [
                      (ofStr "type", Json.str (ofStr "Column")),
                      (ofStr "width", Json.str (ofStr "stretch")),
                      (ofStr "items", Json.arr [
                        Json.obj [(ofStr "type", Json.str (ofStr "TextBlock")),
                          (ofStr "text", Json.str (ofStr "see less")),
                          (ofStr "id", Json.str (ofStr "collapse")),
                          (ofStr "isVisible", Json.bool false),
                          (ofStr "wrap", Json.bool true),
                          (ofStr "color", Json.str (ofStr "Accent"))],
                        Json.obj [(ofStr "type", Json.str (ofStr "TextBlock")),
                          (ofStr "text", Json.str (ofStr "see more")),
                          (ofStr "id", Json.str (ofStr "expand")),
                          (ofStr "wrap", Json.bool true),
                          (ofStr "color", Json.str (ofStr "Accent"))]])]]),
                  (ofStr "selectAction", Json.obj [
                    (ofStr "type", Json.str (ofStr "Action.ToggleVisibility")),
                    (ofStr "targetElements", Json.arr [
                      Json.str (ofStr "collapse"),
                      Json.str (ofStr "expand"),
                      Json.str (ofStr "expandedItems")])])]])]]),
          (ofStr "actions", Json.arr [
            Json.obj [
              (ofStr "type", Json.str (ofStr "Action.OpenUrl")),
              (ofStr "title", Json.str (ofStr "Open Link")),
              (ofStr "wrap", Json.bool true),
              (ofStr "url", Json.str item.rss_link)]]),
          (ofStr "msteams", Json.obj [(ofStr "width", Json.str (ofStr "Full"))]),
          (ofStr "$schema", Json.str (ofStr "http://adaptivecards.io/schemas/adaptive-card.json"))])]])]

/-- The per-item rendering step of push_notification (after summary and
detail are attached): for destination "teams" first rewrite every 。-newline
in the detail to 。-carriage-return and build the Teams card; for any other
destination build the Slack message unchanged. -/
def push_notification_render (destination : Str) (item : Item) : Json :=
  if destination = ofStr "teams" then
    create_teams_message { item with detail := pyReplace (ofStr "。\n") (ofStr "。\r") item.detail }
  else create_slack_message item

/-- The URL of the action button of a Slack message: last block, first
element, url field. -/
def slackActionUrl (msg : Json) : Option Str :=
  (jField (ofStr "blocks") msg).bind fun blocks =>
    (jLast blocks).bind fun actions =>
      (jField (ofStr "elements") actions).bind fun elems =>
        (jAt 0 elems).bind fun button =>
          (jField (ofStr "url") button).bind jStrVal

/-- The URL of the Action.OpenUrl action of a Teams message. -/
def teamsActionUrl (msg : Json) : Option Str :=
  (jField (ofStr "attachments") msg).bind fun atts =>
    (jAt 0 atts).bind fun att =>
      (jField (ofStr "content") att).bind fun content =>
        (jField (ofStr "actions") content).bind fun actions =>
          (jAt 0 actions).bind fun action =>
            (jField (ofStr "url") action).bind jStrVal

/-- The detail text of a Teams message: the TextBlock inside the hidden
expandedItems container. -/
def teamsDetailText (msg : Json) : Option Str :=
  (jField (ofStr "attachments") msg).bind fun atts =>
    (jAt 0 atts).bind fun att =>
      (jField (ofStr "content") att).bind fun content =>
        (jField (ofStr "body") content).bind fun body =>
          (jAt 0 body).bind fun columnSet =>
            (jField (ofStr "columns") columnSet).bind fun cols =>
              (jAt 0 cols).bind fun col =>
                (jField (ofStr "items") col).bind fun items =>
                  (jAt 1 items).bind fun container =>
                    (jField (ofStr "items") container).bind fun inner =>
                      (jAt 0 inner).bind fun tb =>
                        (jField (ofStr "text") tb).bind jStrVal

theorem isPrefixOf_exists {p s : Str} : p.isPrefixOf s = true ↔ ∃ t, s = p ++ t := by
  induction p generalizing s with
  | nil => simp [List.isPrefixOf]
  | cons a ps ih =>
    cases s with
    | nil => simp [List.isPrefixOf]
    | cons b rest =>
      simp only [List.isPrefixOf, Bool.and_eq_true, beq_iff_eq, ih, List.cons_append]
      constructor
      · rintro ⟨rfl, t, rfl⟩
        exact ⟨t, rfl⟩
      · rintro ⟨t, h⟩
        cases h
        exact ⟨rfl, t, rfl⟩

theorem hasOcc_nil {pat : Str} : hasOcc pat [] = false := rfl

theorem hasOcc_cons {pat : Str} {c : Char} {s : Str} :
    hasOcc pat (c :: s) = (pat.isPrefixOf (c :: s) || hasOcc pat s) := by
  simp only [hasOcc, firstOcc]
  by_cases h : pat.isPrefixOf (c :: s) = true
  · simp [h]
  · simp [h, Option.isSome_map]

theorem hasOcc_iff_exists {pat s : Str} (hp : pat ≠ []) :
    hasOcc pat s = true ↔ ∃ a b, s = a ++ pat ++ b := by
  induction s with
  | nil =>
    simp only [hasOcc_nil, Bool.false_eq_true, false_iff]
    rintro ⟨a, b, h⟩
    cases a <;> simp at h
    exact hp h.1
  | cons c rest ih =>
    rw [hasOcc_cons, Bool.or_eq_true, isPrefixOf_exists, ih]
    constructor
    · rintro (⟨t, h⟩ | ⟨a, b, h⟩)
      · exact ⟨[], t, by simpa using h⟩
      · exact ⟨c :: a, b, by simp [h]⟩
    · rintro ⟨a, b, h⟩
      cases a with
      | nil => exact Or.inl ⟨b, by simpa using h⟩
      | cons x a2 =>
        simp only [List.cons_append, List.cons.injEq] at h
        exact Or.inr ⟨a2, b, h.2⟩

theorem hasOcc_of_middle {pat t : Str} (hp : pat ≠ []) (u v : Str)
    (h : hasOcc pat t = true) : hasOcc pat (u ++ t ++ v) = true := by
  rcases (hasOcc_iff_exists hp).1 h with ⟨a, b, rfl⟩
  exact (hasOcc_iff_exists hp).2 ⟨u ++ a, b ++ v, by simp [List.append_assoc]⟩

theorem hasOcc_false_of_middle {pat t : Str} (hp : pat ≠ []) (u v : Str)
    (h : hasOcc pat (u ++ t ++ v) = false) : hasOcc pat t = false := by
  by_contra hc
  rw [hasOcc_of_middle hp u v (by revert hc; cases hasOcc pat t <;> simp)] at h
  cases h

/-- C1 (counterexample): sanitize_text is not idempotent.  Deleting the
inner instruction pair of this input splices together a new
instruction open/close pair, which only a second sanitization removes, so
sanitizing the sanitized text changes it again. -/
theorem sanitize_text_not_idempotent :
    sanitize_text (sanitize_text (ofStr "<in<instruction></instruction>struction>foo</instruction>")) ≠
      sanitize_text (ofStr "<in<instruction></instruction>struction>foo</instruction>") := by
  decide

/-- C4 (counterexample): on a nested occurrence the non-greedy pattern
pairs the outer open tag with the inner close tag, so the text between the
inner and outer close tags and the outer close tag itself survive; the
whole outer pair is not removed. -/
theorem sanitize_text_nested_not_removed :
    sanitize_text (ofStr "<instruction>a<instruction>b</instruction>c</instruction>") =
      ofStr "c</instruction>" ∧
    sanitize_text (ofStr "<instruction>a<instruction>b</instruction>c</instruction>") ≠ [] := by
  decide

/-- C7: parse_bullet_points groups the four-line example into the 新機能
group with items "support for X" and "more detail" followed by the 対象
group with items "all users" and "only admins". -/
theorem parse_bullet_points_concrete :
    parse_bullet_points
        (ofStr "- 新機能: support for X\n- more detail\n- 対象: all users\n- only admins") =
      [{ topic := some (ofStr "新機能"), items := [ofStr "support for X", ofStr "more detail"] },
       { topic := some (ofStr "対象"), items := [ofStr "all users", ofStr "only admins"] }] := by
  decide

/-- C2 (code divergence): for a URL whose scheme is not http or https,
get_blog_content does not return the absent-content value; its else-branch
reads the unbound local `response`, raising UnboundLocalError, whatever the
network oracle would do. -/
theorem get_blog_content_scheme_raises (net : Str → NetOutcome) :
    get_blog_content net (ofStr "ftp://example.com/feed") = Except.error PyErr.nameError := rfl

/-- C3: a converse-call ClientError with code AccessDeniedException is
caught and not re-raised (the function then fails with UnboundLocalError at
its return statement, after printing the diagnostic, because summary and
detail were never bound); a ClientError with any other code is re-raised
unchanged. -/
theorem summarize_blog_error_handling (code msg : Str) :
    (code = ofStr "AccessDeniedException" →
      summarize_blog (.clientError code msg) = .error .nameError ∧
      summarize_blog (.clientError code msg) ≠ .error (.clientError code msg)) ∧
    (code ≠ ofStr "AccessDeniedException" →
      summarize_blog (.clientError code msg) = .error (.clientError code msg)) := by
  constructor
  · rintro rfl
    refine ⟨rfl, ?_⟩
    rw [show summarize_blog (.clientError (ofStr "AccessDeniedException") msg) =
      .error .nameError from rfl]
    simp
  · intro h
    simp [summarize_blog, h]

/-- Witness for C3 at two concrete error codes. -/
theorem summarize_blog_error_handling_witness :
    summarize_blog (.clientError (ofStr "AccessDeniedException") (ofStr "denied")) =
      .error .nameError ∧
    summarize_blog (.clientError (ofStr "ThrottlingException") (ofStr "slow down")) =
      .error (.clientError (ofStr "ThrottlingException") (ofStr "slow down")) :=
  ⟨((summarize_blog_error_handling _ _).1 rfl).1,
   (summarize_blog_error_handling _ _).2 (by decide)⟩

/-- C5: when the raw model response contains no summary tag pair, the
returned summary is the sanitized response itself when it has at most 200
characters, and otherwise its first 200 characters followed by "...",
giving 203 characters in total. -/
theorem summarize_blog_fallback_truncation (s : Str)
    (h : find_first_between (ofStr "<summary>") (ofStr "</summary>") s = none) :
    ((sanitize_text s).length ≤ 200 → (summarize_blog_parse s).1 = sanitize_text s) ∧
    (200 < (sanitize_text s).length →
      (summarize_blog_parse s).1 = (sanitize_text s).take 200 ++ ofStr "..." ∧
      (summarize_blog_parse s).1.length = 203) := by
  constructor
  · intro hle
    simp [summarize_blog_parse, h, fallback_summary, Nat.not_lt.2 hle]
  · intro hlt
    have he : (summarize_blog_parse s).1 = (sanitize_text s).take 200 ++ ofStr "..." := by
      simp [summarize_blog_parse, h, fallback_summary, hlt]
    refine ⟨he, ?_⟩
    rw [he]
    have h3 : (ofStr "...").length = 3 := rfl
    simp [List.length_append, List.length_take, h3]
    omega

set_option maxRecDepth 8192 in
/-- Witness for C5: a 250-character plain-text response with no summary tag
is summarized as its first 200 characters plus an ellipsis. -/
theorem summarize_blog_fallback_truncation_witness :
    (summarize_blog_parse (List.replicate 250 'a')).1 =
      List.replicate 200 'a' ++ ofStr "..." := by
  have h := (summarize_blog_fallback_truncation (List.replicate 250 'a') (by decide)).2 (by decide)
  rw [h.1]
  decide

/-- C6: a dash-marked line whose stripped content contains a topic keyword
and a colon always appends a fresh group: its topic is the text before the
first colon, trimmed, and its items start with the trimmed text after the
colon unless that text is empty (see topic_group). -/
theorem parse_bullet_lines_topic_line (pre : List Str) (l : Str)
    (h0 : (ofStr "- ").isPrefixOf (pyStrip l) = true)
    (hk : (topicKeywords.any fun k => hasOcc k (pyStrip ((pyStrip l).drop 2))) = true)
    (hc : hasOcc (ofStr ":") (pyStrip ((pyStrip l).drop 2)) = true) :
    parse_bullet_lines (pre ++ [l]) =
      parse_bullet_lines pre ++ [topic_group (pyStrip ((pyStrip l).drop 2))] := by
  unfold parse_bullet_lines
  rw [List.foldl_append]
  simp only [List.foldl_cons, List.foldl_nil]
  have hne : pyStrip l ≠ [] := by
    intro he
    rw [he] at h0
    simp [List.isPrefixOf, ofStr] at h0
  rw [lineStep, if_neg hne, if_pos h0, bulletStep, if_pos (by rw [hk, hc]; rfl)]

/-- Witness for C6: after an untopiced bullet, the 対象 line opens a new
group with the trimmed topic and first item. -/
theorem parse_bullet_lines_topic_line_witness :
    parse_bullet_lines [ofStr "- intro point", ofStr "- 対象: all users"] =
      [{ topic := none, items := [ofStr "intro point"] },
       { topic := some (ofStr "対象"), items := [ofStr "all users"] }] := by
  have h := parse_bullet_lines_topic_line [ofStr "- intro point"] (ofStr "- 対象: all users")
    (by decide) (by decide) (by decide)
  rw [show ([ofStr "- intro point", ofStr "- 対象: all users"] : List Str) =
    [ofStr "- intro point"] ++ [ofStr "- 対象: all users"] from rfl, h]
  decide

/-- C9: both renderers embed the article link: the Slack message carries it
as the url of the button in its final actions block, and the Teams message
as the url of its Action.OpenUrl action. -/
theorem rendered_messages_include_link (item : Item) :
    slackActionUrl (create_slack_message item) = some item.rss_link ∧
    teamsActionUrl (create_teams_message item) = some item.rss_link := by
  refine ⟨?_, rfl⟩
  have hl : (slack_blocks item).getLast? = some (slackActionsBlock item) := by
    unfold slack_blocks
    rw [List.getLast?_append_of_ne_nil _ (by simp), List.getLast?_append_of_ne_nil _ (by simp),
      List.getLast?_append_of_ne_nil _ (by simp), List.getLast?_append_of_ne_nil _ (by simp)]
    rfl
  unfold slackActionUrl
  have h1 : jField (ofStr "blocks") (create_slack_message item) =
      some (Json.arr (slack_blocks item)) := rfl
  rw [h1, Option.some_bind]
  have h2 : jLast (Json.arr (slack_blocks item)) = some (slackActionsBlock item) := by
    simpa [jLast] using hl
  rw [h2, Option.some_bind]
  rfl

theorem appendToLast_all_topic (gs : List BulletGroup) (x : Str) :
    ((appendToLast gs x).all fun g => g.topic.isSome) =
      (gs.all fun g => g.topic.isSome) := by
  induction gs with
  | nil => rfl
  | cons g rest ih =>
    cases rest with
    | nil => simp [appendToLast]
    | cons g2 t => simp only [appendToLast, List.all_cons, ih]

theorem appendToLast_drop1_all (gs : List BulletGroup) (x : Str) :
    (((appendToLast gs x).drop 1).all fun g => g.topic.isSome) =
      ((gs.drop 1).all fun g => g.topic.isSome) := by
  cases gs with
  | nil => rfl
  | cons g rest =>
    cases rest with
    | nil => rfl
    | cons g2 t =>
      simp only [appendToLast, List.drop_succ_cons, List.drop_zero]
      exact appendToLast_all_topic (g2 :: t) x

/-- Loop invariant of parse_bullet_points: while current_group is unset the
group list is empty or a single topic-less group, and every group beyond
the first carries a topic. -/
def ParseInv (st : ParseState) : Prop :=
  (st.currentSet = false →
    st.groups = [] ∨ ∃ its, st.groups = [{ topic := none, items := its }]) ∧
  ((st.groups.drop 1).all fun g => g.topic.isSome) = true

theorem bulletStep_inv {st : ParseState} (content : Str) (h : ParseInv st) :
    ParseInv (bulletStep st content) := by
  obtain ⟨hcur, hall⟩ := h
  unfold bulletStep
  split_ifs with h1 h2 h3
  · refine ⟨(fun hc => nomatch hc), ?_⟩
    cases hg : st.groups with
    | nil => simp [hg]
    | cons g t =>
      rw [hg] at hall
      simp only [List.cons_append, List.drop_succ_cons, List.drop_zero] at hall ⊢
      simp [List.all_append, hall, topic_group]
  · exact ⟨(fun hc => nomatch hc), by rw [appendToLast_drop1_all]; exact hall⟩
  · have hgs : st.groups = [] := by
      rcases hcur (by revert h2; cases st.currentSet <;> simp) with hg | ⟨its, hg⟩
      · exact hg
      · rw [hg] at h3
        simp [lastTopicTruthy, optTruthy] at h3
    rw [hgs]
    exact ⟨fun _ => Or.inr ⟨[content], rfl⟩, rfl⟩
  · have hgs : ∃ its, st.groups = [{ topic := none, items := its }] := by
      rcases hcur (by revert h2; cases st.currentSet <;> simp) with hg | hg
      · rw [hg] at h3
        simp at h3
      · exact hg
    obtain ⟨its, hg⟩ := hgs
    rw [hg]
    exact ⟨fun _ => Or.inr ⟨its ++ [content], rfl⟩, rfl⟩

theorem lineStep_inv {st : ParseState} (l : Str) (h : ParseInv st) :
    ParseInv (lineStep st l) := by
  unfold lineStep
  split_ifs with h1 h2
  · exact h
  · exact bulletStep_inv _ h
  · exact h

theorem foldl_lineStep_inv (lines : List Str) {st : ParseState} (h : ParseInv st) :
    ParseInv (lines.foldl lineStep st) := by
  induction lines generalizing st with
  | nil => exact h
  | cons l rest ih => exact ih (lineStep_inv l h)

theorem all_topic_countP {gs : List BulletGroup}
    (h : (gs.all fun g => g.topic.isSome) = true) :
    (gs.countP fun g => g.topic.isNone) = 0 := by
  rw [List.countP_eq_zero]
  intro g hg
  have h2 := (List.all_eq_true.1 h) g hg
  cases ht : g.topic <;> simp [ht] at h2 ⊢

/-- C10: the group list produced by parse_bullet_points has a topic on
every group after the first, and contains at most one topic-less group
(which is therefore the first when present). -/
theorem parse_bullet_points_topicless_first (text : Str) :
    (((parse_bullet_points text).drop 1).all fun g => g.topic.isSome) = true ∧
    ((parse_bullet_points text).countP fun g => g.topic.isNone) ≤ 1 := by
  have hmain : (((parse_bullet_points text).drop 1).all fun g => g.topic.isSome) = true := by
    unfold parse_bullet_points
    split_ifs with h
    · rfl
    · have h0 : ParseInv { groups := [], currentSet := false } := ⟨fun _ => Or.inl rfl, rfl⟩
      exact (foldl_lineStep_inv _ h0).2
  refine ⟨hmain, ?_⟩
  cases hg : parse_bullet_points text with
  | nil => simp
  | cons g t =>
    rw [hg] at hmain
    simp only [List.drop_succ_cons, List.drop_zero] at hmain
    rw [List.countP_cons, all_topic_countP hmain]
    split_ifs <;> omega

theorem pyReplaceFuel_maru_head (f : Nat) (s : Str)
    (h : (pyReplaceFuel '。' ['\n'] ['。', '\r'] f s).head? = some '\n') :
    s.head? = some '\n' := by
  cases f with
  | zero => exact h
  | succ f =>
    cases s with
    | nil => exact h
    | cons c rest =>
      revert h
      simp only [pyReplaceFuel]
      split_ifs with hp
      · intro h
        simp only [List.cons_append, List.head?_cons, Option.some.injEq] at h
        exact absurd h (by decide)
      · intro h
        simpa using h

theorem pyReplaceFuel_maru_no_occ (f : Nat) : ∀ (s : Str), s.length ≤ f →
    hasOcc ['。', '\n'] (pyReplaceFuel '。' ['\n'] ['。', '\r'] f s) = false := by
  induction f with
  | zero =>
    intro s hs
    have : s = [] := by
      cases s with
      | nil => rfl
      | cons c rest => simp at hs
    rw [this]
    rfl
  | succ f ih =>
    intro s hs
    cases s with
    | nil => rfl
    | cons c rest =>
      simp only [pyReplaceFuel]
      split_ifs with hp
      · obtain ⟨t, ht⟩ := isPrefixOf_exists.1 hp
        simp only [List.cons_append, List.nil_append, List.cons.injEq] at ht
        obtain ⟨hc, hr⟩ := ht
        subst hc
        rw [hr]
        show hasOcc ['。', '\n'] ('。' :: '\r' :: pyReplaceFuel '。' ['\n'] ['。', '\r'] f t) = false
        rw [hasOcc_cons, hasOcc_cons, ih t (by
          have := congrArg List.length hr
          simp at this hs
          omega)]
        simp [List.isPrefixOf]
      · rw [hasOcc_cons, ih rest (by simp at hs; omega)]
        simp only [Bool.or_false]
        cases hpre : List.isPrefixOf ['。', '\n'] (c :: pyReplaceFuel '。' ['\n'] ['。', '\r'] f rest) with
        | false => rfl
        | true =>
          exfalso
          obtain ⟨t2, ht2⟩ := isPrefixOf_exists.1 hpre
          simp only [List.cons_append, List.nil_append, List.cons.injEq] at ht2
          obtain ⟨hc, hR⟩ := ht2
          subst hc
          have hhd : rest.head? = some '\n' :=
            pyReplaceFuel_maru_head f rest (by rw [hR]; rfl)
          cases rest with
          | nil => simp at hhd
          | cons r rs =>
            simp only [List.head?_cons, Option.some.injEq] at hhd
            subst hhd
            simp [List.isPrefixOf] at hp

theorem pyReplace_maru_no_occ (s : Str) :
    hasOcc (ofStr "。\n") (pyReplace (ofStr "。\n") (ofStr "。\r") s) = false := by
  show hasOcc ['。', '\n'] (pyReplaceFuel '。' ['\n'] ['。', '\r'] (s.length + 1) s) = false
  exact pyReplaceFuel_maru_no_occ (s.length + 1) s (by omega)

/-- C8: dispatching with destination "teams" rewrites every 。-newline pair
of the detail to 。-carriage-return before the Teams card is built (the
card's hidden detail TextBlock carries the rewritten text, which has no
。-newline occurrence left), while any other destination renders the Slack
message from the untouched item. -/
theorem push_notification_teams_linebreak (item : Item) (d : Str) :
    teamsDetailText (push_notification_render (ofStr "teams") item) =
      some (pyReplace (ofStr "。\n") (ofStr "。\r") item.detail) ∧
    hasOcc (ofStr "。\n") (pyReplace (ofStr "。\n") (ofStr "。\r") item.detail) = false ∧
    (d ≠ ofStr "teams" → push_notification_render d item = create_slack_message item) := by
  refine ⟨rfl, pyReplace_maru_no_occ _, fun h => ?_⟩
  unfold push_notification_render
  rw [if_neg h]

/-- Witness for C8: with destination "slack" the Slack renderer receives
the item unchanged. -/
theorem push_notification_teams_linebreak_witness :
    push_notification_render (ofStr "slack")
        { rss_category := ofStr "cat", rss_time := ofStr "2026-01-01", rss_title := ofStr "title",
          rss_link := ofStr "https://example.com/a", rss_notifier_name := ofStr "n",
          summary := ofStr "sum", detail := ofStr "d。\ne" } =
      create_slack_message
        { rss_category := ofStr "cat", rss_time := ofStr "2026-01-01", rss_title := ofStr "title",
          rss_link := ofStr "https://example.com/a", rss_notifier_name := ofStr "n",
          summary := ofStr "sum", detail := ofStr "d。\ne" } :=
  (push_notification_teams_linebreak _ (ofStr "slack")).2.2 (by decide)

theorem collapseRun_eq (n : Nat) : collapseRun n = List.replicate (min n 2) '\n' := by
  unfold collapseRun
  split_ifs with h
  · have h2 : min n 2 = 2 := by omega
    rw [h2]
    rfl
  · have h2 : min n 2 = n := by omega
    rw [h2]

theorem hasOcc_triple_replicate {k : Nat} (hk : k ≤ 2) :
    hasOcc ['\n', '\n', '\n'] (List.replicate k '\n') = false := by
  interval_cases k <;> decide

theorem no_triple_glue {k : Nat} (hk : k ≤ 2) {c : Char} (hc : ¬c = '\n') {R : Str}
    (hR : hasOcc ['\n', '\n', '\n'] R = false) :
    hasOcc ['\n', '\n', '\n'] (List.replicate k '\n' ++ (c :: R)) = false := by
  cases hcon : hasOcc ['\n', '\n', '\n'] (List.replicate k '\n' ++ (c :: R)) with
  | false => rfl
  | true =>
    exfalso
    obtain ⟨a, b, heq⟩ := (hasOcc_iff_exists (by decide)).1 hcon
    rw [List.append_assoc] at heq
    rcases List.append_eq_append_iff.1 heq with ⟨a2, ha, hb⟩ | ⟨c2, ha, hb⟩
    · cases a2 with
      | nil =>
        simp only [List.nil_append, List.cons_append, List.cons.injEq] at hb
        exact hc hb.1
      | cons x xs =>
        simp only [List.cons_append, List.cons.injEq] at hb
        have : hasOcc ['\n', '\n', '\n'] R = true :=
          (hasOcc_iff_exists (by decide)).2 ⟨xs, b, by rw [hb.2]; simp⟩
        rw [this] at hR
        cases hR
    · have hlen : c2.length ≤ 2 := by
        have := congrArg List.length ha
        simp only [List.length_replicate, List.length_append] at this
        omega
      rcases c2 with _ | ⟨y1, _ | ⟨y2, _ | ⟨y3, cr⟩⟩⟩
      · simp only [List.nil_append, List.cons_append, List.cons.injEq] at hb
        exact hc hb.1.symm
      · simp only [List.cons_append, List.nil_append, List.cons.injEq] at hb
        exact hc hb.2.1.symm
      · simp only [List.cons_append, List.nil_append, List.cons.injEq] at hb
        exact hc hb.2.2.1.symm
      · simp at hlen

theorem collapseNLAux_no_triple (s : Str) : ∀ (n : Nat),
    hasOcc ['\n', '\n', '\n'] (collapseNLAux s n) = false := by
  induction s with
  | nil =>
    intro n
    simp only [collapseNLAux]
    rw [collapseRun_eq]
    exact hasOcc_triple_replicate (by omega)
  | cons c rest ih =>
    intro n
    simp only [collapseNLAux]
    split_ifs with hc
    · exact ih (n + 1)
    · rw [collapseRun_eq]
      exact no_triple_glue (by omega) hc (ih 0)

theorem collapseNL_no_triple (s : Str) :
    hasOcc (ofStr "\n\n\n") (collapseNL s) = false := by
  show hasOcc ['\n', '\n', '\n'] (collapseNLAux s 0) = false
  exact collapseNLAux_no_triple s 0

theorem collapseNLAux_id (s : Str) : ∀ (n : Nat), n ≤ 2 →
    hasOcc ['\n', '\n', '\n'] (List.replicate n '\n' ++ s) = false →
    collapseNLAux s n = List.replicate n '\n' ++ s := by
  induction s with
  | nil =>
    intro n hn _
    simp only [collapseNLAux, collapseRun, List.append_nil]
    rw [if_neg (by omega)]
  | cons c rest ih =>
    intro n hn h
    simp only [collapseNLAux]
    split_ifs with hc
    · subst hc
      have hn1 : n ≤ 1 := by
        by_contra hgt
        have hn2 : n = 2 := by omega
        subst hn2
        have htr : hasOcc ['\n', '\n', '\n']
            (List.replicate 2 '\n' ++ '\n' :: rest) = true :=
          (hasOcc_iff_exists (by decide)).2 ⟨[], rest, rfl⟩
        rw [htr] at h
        cases h
      have heq : List.replicate (n + 1) '\n' ++ rest =
          List.replicate n '\n' ++ '\n' :: rest := by
        rw [List.replicate_succ', List.append_assoc, List.singleton_append]
      rw [ih (n + 1) (by omega) (by rw [heq]; exact h), heq]
    · have hshape : List.replicate n '\n' ++ c :: rest =
          (List.replicate n '\n' ++ [c]) ++ rest ++ [] := by simp
      have hrest : hasOcc ['\n', '\n', '\n'] rest = false := by
        rw [hshape] at h
        exact hasOcc_false_of_middle (by decide) _ _ h
      rw [collapseRun, if_neg (by omega), ih 0 (by omega) (by simpa using hrest)]
      simp

theorem collapseNL_id_of_no_triple {s : Str}
    (h : hasOcc (ofStr "\n\n\n") s = false) : collapseNL s = s := by
  show collapseNLAux s 0 = s
  have hmain := collapseNLAux_id s 0 (by omega) (by simpa using h)
  simpa using hmain

theorem dropWhile_exists_pre (p : Char → Bool) (s : Str) :
    ∃ u, s = u ++ s.dropWhile p := by
  induction s with
  | nil => exact ⟨[], rfl⟩
  | cons c rest ih =>
    by_cases hc : p c = true
    · obtain ⟨u, hu⟩ := ih
      refine ⟨c :: u, ?_⟩
      rw [List.dropWhile_cons, if_pos hc, List.cons_append, ← hu]
    · refine ⟨[], ?_⟩
      rw [List.dropWhile_cons, if_neg hc, List.nil_append]

theorem pyStrip_infix (s : Str) : ∃ u v, s = u ++ pyStrip s ++ v := by
  obtain ⟨u, hu⟩ := dropWhile_exists_pre isPySpace s
  obtain ⟨w, hw⟩ := dropWhile_exists_pre isPySpace (s.dropWhile isPySpace).reverse
  refine ⟨u, w.reverse, ?_⟩
  have hd2 : s.dropWhile isPySpace = pyStrip s ++ w.reverse := by
    have h2 := congrArg List.reverse hw
    rw [List.reverse_reverse, List.reverse_append] at h2
    exact h2
  rw [List.append_assoc, ← hd2]
  exact hu

theorem hasOcc_pyStrip_false {pat s : Str} (hp : pat ≠ [])
    (h : hasOcc pat s = false) : hasOcc pat (pyStrip s) = false := by
  cases hps : hasOcc pat (pyStrip s) with
  | false => rfl
  | true =>
    exfalso
    obtain ⟨u, v, huv⟩ := pyStrip_infix s
    rw [huv, hasOcc_of_middle hp u v hps] at h
    cases h

theorem dropWhile_dropWhile (p : Char → Bool) (s : Str) :
    (s.dropWhile p).dropWhile p = s.dropWhile p := by
  induction s with
  | nil => rfl
  | cons c rest ih =>
    rw [List.dropWhile_cons]
    split_ifs with hc
    · exact ih
    · rw [List.dropWhile_cons, if_neg hc]

theorem dropWhile_head_false (p : Char → Bool) (s : Str) :
    s.dropWhile p = [] ∨ ∃ c t, s.dropWhile p = c :: t ∧ p c = false := by
  induction s with
  | nil => exact Or.inl rfl
  | cons c rest ih =>
    rw [List.dropWhile_cons]
    split_ifs with hc
    · exact ih
    · exact Or.inr ⟨c, rest, rfl, by revert hc; cases p c <;> simp⟩

theorem pyStrip_pyStrip (s : Str) : pyStrip (pyStrip s) = pyStrip s := by
  have hA : (pyStrip s).dropWhile isPySpace = pyStrip s := by
    cases hcase : pyStrip s with
    | nil => rfl
    | cons c t =>
      obtain ⟨w, hw⟩ := dropWhile_exists_pre isPySpace (s.dropWhile isPySpace).reverse
      have hd2 : s.dropWhile isPySpace = pyStrip s ++ w.reverse := by
        have h2 := congrArg List.reverse hw
        rw [List.reverse_reverse, List.reverse_append] at h2
        exact h2
      rcases dropWhile_head_false isPySpace s with hnil | ⟨c2, t2, hct, hpc⟩
      · rw [hnil, hcase] at hd2
        simp at hd2
      · rw [hct, hcase, List.cons_append] at hd2
        simp only [List.cons.injEq] at hd2
        rw [List.dropWhile_cons, if_neg (by rw [hd2.1] at hpc; simp [hpc])]
  have hfin : pyStrip (pyStrip s) =
      ((pyStrip s).reverse.dropWhile isPySpace).reverse := by
    show (((pyStrip s).dropWhile isPySpace).reverse.dropWhile isPySpace).reverse = _
    rw [hA]
  rw [hfin]
  show (((s.dropWhile isPySpace).reverse.dropWhile isPySpace).reverse.reverse.dropWhile
    isPySpace).reverse = pyStrip s
  rw [List.reverse_reverse, dropWhile_dropWhile]
  rfl

theorem sanitize_text_ne {t : Str} (ht : t ≠ []) :
    sanitize_text t = pyStrip (collapseNL (removeUnwantedTags t)) := by
  unfold sanitize_text
  rw [if_neg ht]

/-- C1 (amended): sanitize_text is idempotent on every input whose
sanitized form the tag-removal pass leaves unchanged; the newline-collapse
and strip phases are always idempotent on sanitize_text output, so only
tag pairs newly created by deletion (as in the recorded counterexample) can
make a second sanitization differ. -/
theorem sanitize_text_idem_of_tags_fixed (x : Str)
    (h : removeUnwantedTags (sanitize_text x) = sanitize_text x) :
    sanitize_text (sanitize_text x) = sanitize_text x := by
  by_cases hx : x = []
  · rw [hx]
    rfl
  by_cases hy : sanitize_text x = []
  · rw [hy]
    rfl
  have hz : sanitize_text x = pyStrip (collapseNL (removeUnwantedTags x)) :=
    sanitize_text_ne hx
  have hT : hasOcc (ofStr "\n\n\n") (sanitize_text x) = false := by
    rw [hz]
    exact hasOcc_pyStrip_false (by decide) (collapseNL_no_triple _)
  calc sanitize_text (sanitize_text x)
      = pyStrip (collapseNL (removeUnwantedTags (sanitize_text x))) :=
        sanitize_text_ne hy
    _ = pyStrip (collapseNL (sanitize_text x)) := by rw [h]
    _ = pyStrip (sanitize_text x) := by rw [collapseNL_id_of_no_triple hT]
    _ = sanitize_text x := by rw [hz, pyStrip_pyStrip]

/-- Witness for C1 (amended) on an input whose sanitized form contains no
removable tag pair. -/
theorem sanitize_text_idem_of_tags_fixed_witness :
    sanitize_text (sanitize_text (ofStr "  a<persona>b</persona>c\n\n\n\nd ")) =
      sanitize_text (ofStr "  a<persona>b</persona>c\n\n\n\nd ") :=
  sanitize_text_idem_of_tags_fixed _ (by decide)

theorem removeTaggedFuel_succ_match {f : Nat} {tag s : Str} {j : Nat}
    (hpre : (openTagOf tag).isPrefixOf s = true)
    (hj : firstOcc (closeTagOf tag) (s.drop (openTagOf tag).length) = some j) :
    removeTaggedFuel (f + 1) tag s =
      removeTaggedFuel f tag
        ((s.drop (openTagOf tag).length).drop (j + (closeTagOf tag).length)) := by
  cases s with
  | nil => simp [openTagOf, List.isPrefixOf] at hpre
  | cons c rest =>
    simp only [removeTaggedFuel]
    rw [if_pos hpre, hj]

theorem removeTaggedFuel_succ_skip {f : Nat} {tag : Str} {c : Char} {rest : Str}
    (hpre : (openTagOf tag).isPrefixOf (c :: rest) = false) :
    removeTaggedFuel (f + 1) tag (c :: rest) = c :: removeTaggedFuel f tag rest := by
  simp only [removeTaggedFuel]
  rw [if_neg (by simp [hpre])]

theorem removeTaggedFuel_no_open {tag : Str} : ∀ (fuel : Nat) (s : Str),
    hasOcc (openTagOf tag) s = false → removeTaggedFuel fuel tag s = s := by
  intro fuel
  induction fuel with
  | zero => intro s _; rfl
  | succ f ih =>
    intro s h
    cases s with
    | nil => rfl
    | cons c rest =>
      rw [hasOcc_cons, Bool.or_eq_false_iff] at h
      rw [removeTaggedFuel_succ_skip h.1, ih rest h.2]

theorem removeTagged_no_open {tag s : Str} (h : hasOcc (openTagOf tag) s = false) :
    removeTagged tag s = s := removeTaggedFuel_no_open _ s h

theorem firstOcc_cons_succ {pat : Str} {c : Char} {s : Str} {n : Nat}
    (h : firstOcc pat (c :: s) = some (n + 1)) :
    pat.isPrefixOf (c :: s) = false ∧ firstOcc pat s = some n := by
  revert h
  simp only [firstOcc]
  split_ifs with hp
  · intro h
    simp at h
  · intro h
    refine ⟨by revert hp; cases pat.isPrefixOf (c :: s) <;> simp, ?_⟩
    cases hf : firstOcc pat s with
    | none => rw [hf] at h; simp at h
    | some m =>
      rw [hf] at h
      simp only [Option.map_some', Option.some.injEq] at h
      have hmn : m = n := by omega
      rw [hmn]

theorem removeTaggedFuel_pair {tag : Str} : ∀ (a : Str) (fuel : Nat) (m c : Str),
    firstOcc (openTagOf tag)
      (a ++ (openTagOf tag ++ (m ++ (closeTagOf tag ++ c)))) = some a.length →
    firstOcc (closeTagOf tag) (m ++ (closeTagOf tag ++ c)) = some m.length →
    hasOcc (openTagOf tag) c = false →
    a.length < fuel →
    removeTaggedFuel fuel tag
      (a ++ (openTagOf tag ++ (m ++ (closeTagOf tag ++ c)))) = a ++ c := by
  intro a
  induction a with
  | nil =>
    intro fuel m c h1 h2 h3 hf
    cases fuel with
    | zero => omega
    | succ f =>
      simp only [List.nil_append]
      rw [removeTaggedFuel_succ_match (isPrefixOf_exists.2 ⟨_, rfl⟩)
        (by rw [List.drop_left]; exact h2)]
      rw [List.drop_left, List.drop_append, List.drop_left]
      exact removeTaggedFuel_no_open f c h3
  | cons x a' ih =>
    intro fuel m c h1 h2 h3 hf
    cases fuel with
    | zero => omega
    | succ f =>
      rw [List.cons_append] at h1
      have hlen : (x :: a').length = a'.length + 1 := by simp
      rw [hlen] at h1
      obtain ⟨hnp, h1'⟩ := firstOcc_cons_succ h1
      rw [List.cons_append, removeTaggedFuel_succ_skip hnp,
        ih f m c h1' h2 h3 (by simp at hf; omega)]
      rfl

theorem removeTagged_pair {tag a m c : Str}
    (h1 : firstOcc (openTagOf tag)
      (a ++ (openTagOf tag ++ (m ++ (closeTagOf tag ++ c)))) = some a.length)
    (h2 : firstOcc (closeTagOf tag) (m ++ (closeTagOf tag ++ c)) = some m.length)
    (h3 : hasOcc (openTagOf tag) c = false) :
    removeTagged tag (a ++ (openTagOf tag ++ (m ++ (closeTagOf tag ++ c)))) = a ++ c := by
  unfold removeTagged
  exact removeTaggedFuel_pair a _ m c h1 h2 h3 (by simp [List.length_append]; omega)

/-- C4 (amended): each of the six tag removals is non-greedy: when the
input consists of a prefix a, the first open tag, a body m up to the
earliest close tag, and a tail c with no further open tag of that name,
sanitize_text's tag-removal loop deletes exactly the open tag, m and the
close tag, preserving all surrounding text a and c (the other five tags
being absent).  Nesting is not respected, as the recorded counterexample
shows. -/
theorem removeUnwantedTags_single_pair (tag a m c : Str)
    (htag : tag ∈ unwantedTagNames)
    (h1 : firstOcc (openTagOf tag)
      (a ++ (openTagOf tag ++ (m ++ (closeTagOf tag ++ c)))) = some a.length)
    (h2 : firstOcc (closeTagOf tag) (m ++ (closeTagOf tag ++ c)) = some m.length)
    (h3 : hasOcc (openTagOf tag) c = false)
    (hother : ∀ u ∈ unwantedTagNames, u ≠ tag →
      hasOcc (openTagOf u)
        (a ++ (openTagOf tag ++ (m ++ (closeTagOf tag ++ c)))) = false ∧
      hasOcc (openTagOf u) (a ++ c) = false) :
    removeUnwantedTags (a ++ (openTagOf tag ++ (m ++ (closeTagOf tag ++ c)))) = a ++ c := by
  have hpair := removeTagged_pair h1 h2 h3
  simp only [unwantedTagNames, List.mem_cons, List.not_mem_nil, or_false] at htag
  unfold removeUnwantedTags unwantedTagNames
  simp only [List.foldl_cons, List.foldl_nil]
  rcases htag with rfl | rfl | rfl | rfl | rfl | rfl
  · rw [hpair,
      removeTagged_no_open ((hother (ofStr "summaryRule") (by decide) (by decide)).2),
      removeTagged_no_open ((hother (ofStr "outputLanguage") (by decide) (by decide)).2),
      removeTagged_no_open ((hother (ofStr "instruction") (by decide) (by decide)).2),
      removeTagged_no_open ((hother (ofStr "persona") (by decide) (by decide)).2),
      removeTagged_no_open ((hother (ofStr "input") (by decide) (by decide)).2)]
  · rw [removeTagged_no_open ((hother (ofStr "outputFormat") (by decide) (by decide)).1),
      hpair,
      removeTagged_no_open ((hother (ofStr "outputLanguage") (by decide) (by decide)).2),
      removeTagged_no_open ((hother (ofStr "instruction") (by decide) (by decide)).2),
      removeTagged_no_open ((hother (ofStr "persona") (by decide) (by decide)).2),
      removeTagged_no_open ((hother (ofStr "input") (by decide) (by decide)).2)]
  · rw [removeTagged_no_open ((hother (ofStr "outputFormat") (by decide) (by decide)).1),
      removeTagged_no_open ((hother (ofStr "summaryRule") (by decide) (by decide)).1),
      hpair,
      removeTagged_no_open ((hother (ofStr "instruction") (by decide) (by decide)).2),
      removeTagged_no_open ((hother (ofStr "persona") (by decide) (by decide)).2),
      removeTagged_no_open ((hother (ofStr "input") (by decide) (by decide)).2)]
  · rw [removeTagged_no_open ((hother (ofStr "outputFormat") (by decide) (by decide)).1),
      removeTagged_no_open ((hother (ofStr "summaryRule") (by decide) (by decide)).1),
      removeTagged_no_open ((hother (ofStr "outputLanguage") (by decide) (by decide)).1),
      hpair,
      removeTagged_no_open ((hother (ofStr "persona") (by decide) (by decide)).2),
      removeTagged_no_open ((hother (ofStr "input") (by decide) (by decide)).2)]
  · rw [removeTagged_no_open ((hother (ofStr "outputFormat") (by decide) (by decide)).1),
      removeTagged_no_open ((hother (ofStr "summaryRule") (by decide) (by decide)).1),
      removeTagged_no_open ((hother (ofStr "outputLanguage") (by decide) (by decide)).1),
      removeTagged_no_open ((hother (ofStr "instruction") (by decide) (by decide)).1),
      hpair,
      removeTagged_no_open ((hother (ofStr "input") (by decide) (by decide)).2)]
  · rw [removeTagged_no_open ((hother (ofStr "outputFormat") (by decide) (by decide)).1),
      removeTagged_no_open ((hother (ofStr "summaryRule") (by decide) (by decide)).1),
      removeTagged_no_open ((hother (ofStr "outputLanguage") (by decide) (by decide)).1),
      removeTagged_no_open ((hother (ofStr "instruction") (by decide) (by decide)).1),
      removeTagged_no_open ((hother (ofStr "persona") (by decide) (by decide)).1),
      hpair]

/-- Witness for C4 (amended): a single non-nested instruction pair between
the texts x and z is removed exactly. -/
theorem removeUnwantedTags_single_pair_witness :
    removeUnwantedTags (ofStr "x" ++ (openTagOf (ofStr "instruction") ++
        (ofStr "y" ++ (closeTagOf (ofStr "instruction") ++ ofStr "z")))) =
      ofStr "x" ++ ofStr "z" :=
  removeUnwantedTags_single_pair (ofStr "instruction") (ofStr "x") (ofStr "y") (ofStr "z")
    (by decide) (by decide) (by decide) (by decide) (by decide)
